import Mathlib

/-!
Shallow embedding of the pricing and aggregation engine of the quotedead
repository, file src/models/calculation.py (class Calculator).  Python
numbers are modelled as rationals, Python dictionaries as association
lists in insertion order, and Python exceptions as the error case of
Except Unit.  Each definition mirrors one function or one contiguous
block of the source.
-/

namespace QuoteDead

/-- Model of a dynamically typed Python value as it can appear in the
numeric-like fields of a line item record: None, a number, a string or a
boolean. -/
inductive PyVal where
  | vnone
  | num (q : ℚ)
  | str (s : String)
  | bool (b : Bool)
deriving DecidableEq

/-- Python truthiness for the modelled values: None is falsy, a number is
truthy when nonzero, a string when nonempty, a boolean is itself. -/
def PyVal.truthy : PyVal → Bool
  | .vnone => false
  | .num q => decide (q ≠ 0)
  | .str s => decide (s ≠ "")
  | .bool b => b

/-- Model of the expression (v or 0) used at the numeric boundary of
calculate_item_amount. -/
def pyOrZero (v : PyVal) : PyVal :=
  if v.truthy then v else .num 0

/-- Splitting a character list at every occurrence of a separator, as
Python str.split with a one character separator: the empty input yields
one empty segment, and adjacent separators yield empty segments. -/
def pySplit (sep : Char) : List Char → List (List Char)
  | [] => [[]]
  | c :: t =>
    if c = sep then [] :: pySplit sep t
    else
      match pySplit sep t with
      | [] => [[c]]
      | s :: rest => (c :: s) :: rest

/-- Python str.strip: drop whitespace from both ends. -/
def pyStrip (cs : List Char) : List Char :=
  ((cs.dropWhile Char.isWhitespace).reverse.dropWhile Char.isWhitespace).reverse

/-- Python str.lower restricted to the ASCII case used by the source. -/
def pyLower (cs : List Char) : List Char :=
  cs.map Char.toLower

/-- Numeric value of a list of decimal digits, most significant first. -/
def digitsVal (cs : List Char) : ℕ :=
  cs.foldl (fun n c => 10 * n + (c.toNat - 48)) 0

/-- Model of the Python float(string) conversion on the numeric literal
forms used by the application: optional surrounding whitespace, optional
sign, decimal digits with an optional fractional part and an optional
decimal exponent.  Returns none exactly when Python float would raise
ValueError on such inputs. -/
def parseFloat? (cs0 : List Char) : Option ℚ :=
  let cs := pyStrip cs0
  let sign : Bool := match cs with
    | '-' :: _ => true
    | _ => false
  let cs := match cs with
    | '+' :: t => t
    | '-' :: t => t
    | x => x
  let intd := cs.takeWhile Char.isDigit
  let cs1 := cs.dropWhile Char.isDigit
  let fracd := match cs1 with
    | '.' :: t => t.takeWhile Char.isDigit
    | _ => []
  let cs2 := match cs1 with
    | '.' :: t => t.dropWhile Char.isDigit
    | x => x
  if intd.isEmpty && fracd.isEmpty then none
  else
    let mant : ℚ :=
      if fracd.isEmpty then (digitsVal intd : ℚ)
      else (digitsVal intd : ℚ) + (digitsVal fracd : ℚ) / (10 : ℚ) ^ fracd.length
    let signed : ℚ := if sign then -mant else mant
    match cs2 with
    | [] => some signed
    | e :: t =>
      if e = 'e' ∨ e = 'E' then
        let esign : Bool := match t with
          | '-' :: _ => true
          | _ => false
        let t := match t with
          | '+' :: t2 => t2
          | '-' :: t2 => t2
          | x => x
        let ed := t.takeWhile Char.isDigit
        let rest := t.dropWhile Char.isDigit
        if ed.isEmpty || !rest.isEmpty then none
        else
          let ex : ℤ := if esign then -(digitsVal ed : ℤ) else (digitsVal ed : ℤ)
          some (signed * (10 : ℚ) ^ ex)
      else none

/-- Model of Python float(v) on a PyVal: numbers convert to themselves,
booleans to 0 or 1, strings through parseFloat?, raising ValueError on a
malformed string; float(None) raises TypeError.  Either exception is the
error case. -/
def pyFloat : PyVal → Except Unit ℚ
  | .num q => .ok q
  | .bool b => .ok (if b then 1 else 0)
  | .str s =>
    match parseFloat? s.data with
    | some q => .ok q
    | none => .error ()
  | .vnone => .error ()

/-- Model of float(item.get(key, 0) or 0): an absent field is the Lean
none and defaults to 0 before the conversion. -/
def getNum (o : Option PyVal) : Except Unit ℚ :=
  pyFloat (pyOrZero (o.getD (.num 0)))

/-- First-match lookup in an association list, as Python dictionary
membership and subscription on the dictionaries modelled here. -/
def assocLookup (k : String) : List (String × ℚ) → Option ℚ
  | [] => none
  | (k1, v) :: t => if k1 = k then some v else assocLookup k t

/-- The material block of a line item: an optional selected option name
(none models both an absent key and Python None) and an optional mapping
from option name to per-unit surcharge. -/
structure Material where
  selected : Option String
  price_additions : Option (List (String × ℚ))
deriving DecidableEq

/-- One entry of the mapping form of add_ons: the selected flag and the
rate_per_unit field, each possibly absent. -/
structure AddOnEntry where
  selected : Option PyVal
  rate_per_unit : Option PyVal
deriving DecidableEq

/-- The add_ons field of a line item is either a mapping from add-on name
to entry, or a legacy comma separated string. -/
inductive AddOnsVal where
  | dict (entries : List (String × AddOnEntry))
  | str (s : String)
deriving DecidableEq

/-- A LineItem shaped record as read by calculate_item_amount.  A none
field models an absent dictionary key. -/
structure LineItem where
  uom : Option String
  length : Option PyVal
  height : Option PyVal
  quantity : Option PyVal
  rate : Option PyVal
  material : Option Material
  add_ons : Option AddOnsVal
deriving DecidableEq

namespace Calculator

/-- Base amount block of calculate_item_amount (lines 18-31): SFT
multiplies area = length times height by quantity and rate, RFT uses
length only, NOS and every unrecognized unit use quantity times rate. -/
def baseAmount (uom : String) (length height quantity rate : ℚ) : ℚ :=
  if uom = "SFT" then (length * height) * quantity * rate
  else if uom = "RFT" then length * quantity * rate
  else quantity * rate

/-- Per-unit scaling shared by the material and mapping add-on blocks:
a rate is multiplied by length, height and quantity under SFT, by length
and quantity under RFT, and by quantity alone otherwise. -/
def scaled (uom : String) (p length height quantity : ℚ) : ℚ :=
  if uom = "SFT" then p * length * height * quantity
  else if uom = "RFT" then p * length * quantity
  else p * quantity

/-- Material block of calculate_item_amount (lines 33-52): when the item
has a material entry whose selected value is truthy and is a key of
price_additions, the surcharge is scaled like the base amount, otherwise
the addition is 0. -/
def materialAddition (uom : String) (length height quantity : ℚ) :
    Option Material → ℚ
  | some m =>
    match m.selected with
    | some sel =>
      if sel ≠ "" then
        match assocLookup sel (m.price_additions.getD []) with
        | some p => scaled uom p length height quantity
        | none => 0
      else 0
    | none => 0
  | none => 0

/-- The mapping add-on loop (lines 60-77): an entry whose selected flag
is not truthy is skipped, otherwise its rate_per_unit passes through
float(v or 0), which can raise, and the scaled cost is accumulated. -/
def addOnLoop (uom : String) (length height quantity : ℚ) (acc : ℚ) :
    List (String × AddOnEntry) → Except Unit ℚ
  | [] => .ok acc
  | e :: rest =>
    if (e.2.selected.getD (.bool false)).truthy then
      (pyFloat (pyOrZero (e.2.rate_per_unit.getD (.num 0)))).bind fun r =>
        addOnLoop uom length height quantity
          (acc + scaled uom r length height quantity) rest
    else addOnLoop uom length height quantity acc rest

/-- One iteration of the legacy string add-on loop (lines 84-93): the
stripped lowercased segment adds 150 per square foot for profile door and
250 for lights, in each case only when the unit is SFT; every other
segment adds nothing. -/
def legacyStep (uom : String) (length height quantity : ℚ) (acc : ℚ)
    (seg : List Char) : ℚ :=
  let name := pyLower (pyStrip seg)
  if name = "profile door".data then
    if uom = "SFT" then acc + 150 * length * height * quantity else acc
  else if name = "lights".data then
    if uom = "SFT" then acc + 250 * length * height * quantity else acc
  else acc

/-- Add-on block of calculate_item_amount (lines 54-93): the mapping form
is processed by the loop over its entries, otherwise a nonempty legacy
string is split on commas and processed by the legacy loop; an absent
add_ons key or an empty legacy string contributes 0. -/
def addOnCost (uom : String) (length height quantity : ℚ) :
    Option AddOnsVal → Except Unit ℚ
  | some (.dict entries) => addOnLoop uom length height quantity 0 entries
  | some (.str s) =>
    if s ≠ "" then
      .ok ((pySplit ',' s.data).foldl (legacyStep uom length height quantity) 0)
    else .ok 0
  | none => .ok 0

/-- Calculator.calculate_item_amount (lines 8-98).  The four numeric
fields pass through float(item.get(k, 0) or 0) in source order, the base
amount and material addition are computed, then the add-on cost, and the
total is their sum.  The error case models an uncaught Python
exception. -/
def calculate_item_amount (item : LineItem) : Except Unit ℚ :=
  (getNum item.length).bind fun length =>
  (getNum item.height).bind fun height =>
  (getNum item.quantity).bind fun quantity =>
  (getNum item.rate).bind fun rate =>
  let uom := item.uom.getD "NOS"
  let base_amount := baseAmount uom length height quantity rate
  let total_amount := base_amount + materialAddition uom length height quantity item.material
  (addOnCost uom length height quantity item.add_ons).bind fun add_on_cost =>
  .ok (total_amount + add_on_cost)

/-- An item record as consumed by the aggregation functions: the room and
amount keys may be absent (modelled by none), which the source accesses
without a default. -/
structure AggItem where
  room : Option String
  amount : Option ℚ
deriving DecidableEq

/-- Insertion-order accumulation step of calculate_room_totals: a new
room is appended with its amount, an existing room has the amount added
in place. -/
def addRoomAmount (totals : List (String × ℚ)) (room : String) (amount : ℚ) :
    List (String × ℚ) :=
  if totals.any (fun p => p.1 = room) then
    totals.map (fun p => if p.1 = room then (p.1, p.2 + amount) else p)
  else totals ++ [(room, amount)]

/-- The loop of calculate_room_totals: each item in order contributes
item["room"] and item["amount"], both read without a default, so an
absent key raises KeyError, modelled by the error case. -/
def roomTotalsAux (totals : List (String × ℚ)) :
    List AggItem → Except Unit (List (String × ℚ))
  | [] => .ok totals
  | item :: rest =>
    match item.room with
    | none => .error ()
    | some room =>
      match item.amount with
      | none => .error ()
      | some amount => roomTotalsAux (addRoomAmount totals room amount) rest

/-- Calculator.calculate_room_totals (lines 100-113). -/
def calculate_room_totals (line_items : List AggItem) :
    Except Unit (List (String × ℚ)) :=
  roomTotalsAux [] line_items

/-- Calculator.calculate_grand_total (lines 130-133). -/
def calculate_grand_total (subtotal gst_amount discount_amount : ℚ) : ℚ :=
  subtotal + gst_amount - discount_amount

/-- Dictionary assignment price_map[name] = price: an existing key keeps
its position and gets the new value, a new key is appended. -/
def insertPy (m : List (String × ℚ)) (k : String) (v : ℚ) : List (String × ℚ) :=
  if m.any (fun p => p.1 = k) then
    m.map (fun p => if p.1 = k then (k, v) else p)
  else m ++ [(k, v)]

/-- Splitting a segment at its first occurrence of a separator, as the
Python pair.split(sep, 1); when the separator is absent the whole input
is the first component. -/
def splitFirst (sep : Char) : List Char → List Char × List Char
  | [] => ([], [])
  | c :: t =>
    if c = sep then ([], t)
    else
      let r := splitFirst sep t
      (c :: r.1, r.2)

/-- Calculator.parse_price_mapping (lines 146-167): a falsy (empty)
string gives the empty mapping; otherwise split on commas, keep only the
segments containing a colon, split each at the first colon, strip both
parts, and keep the pair only when the price parses as a float, silently
dropping it otherwise. -/
def parse_price_mapping (price_string : String) : List (String × ℚ) :=
  if price_string = "" then []
  else
    (pySplit ',' price_string.data).foldl
      (fun price_map pair =>
        if pair.contains ':' then
          let np := splitFirst ':' pair
          let name := String.mk (pyStrip np.1)
          match parseFloat? (pyStrip np.2) with
          | some price => insertPy price_map name price
          | none => price_map
        else price_map)
      []

/-- Fixed default surcharge table of get_material_options_from_rate_card
(lines 200-217), keyed by the lowercased option name, with 300 for every
unrecognized name. -/
def defaultMaterialPrice (o : String) : ℚ :=
  let l := String.mk (pyLower o.data)
  if l = "laminate" then 0
  else if l = "veneer" then 500
  else if l = "pu" then 800
  else if l = "acrylic" then 600
  else if l = "premium" then 400
  else if l = "texture" then 200
  else 300

/-- A rate card record as read by get_material_options_from_rate_card:
the two fields may be absent (none) or hold a string. -/
structure RateCardItem where
  material_options : Option String
  material_prices : Option String
deriving DecidableEq

/-- Result record of get_material_options_from_rate_card. -/
structure MaterialOptions where
  options : List String
  base_material : Option String
  price_additions : List (String × ℚ)
deriving DecidableEq

/-- Calculator.get_material_options_from_rate_card (lines 169-223): when
material_options is present and nonempty it is split on commas and each
option stripped; the first option becomes the base material with
surcharge 0, and every later option is assigned the parsed price from
material_prices when its name is a key there, and the default table value
otherwise. -/
def get_material_options_from_rate_card (rci : RateCardItem) : MaterialOptions :=
  match rci.material_options with
  | some s =>
    if s ≠ "" then
      match (pySplit ',' s.data).map (fun o => String.mk (pyStrip o)) with
      | [] => ⟨[], none, []⟩
      | base :: rest =>
        let material_prices :=
          match rci.material_prices with
          | some mp => if mp ≠ "" then parse_price_mapping mp else []
          | none => []
        let price_additions :=
          rest.foldl
            (fun pa o =>
              match assocLookup o material_prices with
              | some p => insertPy pa o p
              | none => insertPy pa o (defaultMaterialPrice o))
            [(base, 0)]
        ⟨base :: rest, some base, price_additions⟩
    else ⟨[], none, []⟩
  | none => ⟨[], none, []⟩

/-- Every rate_per_unit of a selected entry of a mapping add_ons field
converts without raising; trivially true for the other shapes of the
field. -/
def addOnRatesOk : Option AddOnsVal → Prop
  | some (.dict entries) =>
    ∀ e ∈ entries, (e.2.selected.getD (.bool false)).truthy = true →
      ∃ x, pyFloat (pyOrZero (e.2.rate_per_unit.getD (.num 0))) = .ok x
  | _ => True

def fillNumericFields (item : LineItem) (l h q r : ℚ) : LineItem :=
  { item with
      length := some (.num l)
      height := some (.num h)
      quantity := some (.num q)
      rate := some (.num r) }

/-- The per-segment rule as the specification words it: a segment is
well formed when it contains a colon and, splitting at the first colon
and trimming both parts, the price part parses as a number; the result is
the trimmed name together with the parsed price. -/
def specSegmentPair (seg : List Char) : Option (String × ℚ) :=
  if seg.contains ':' then
    match parseFloat? (pyStrip (splitFirst ':' seg).2) with
    | some p => some (String.mk (pyStrip (splitFirst ':' seg).1), p)
    | none => none
  else none

/-- The room and amount pair of an item, defined when both keys are
present. -/
def toPair (i : AggItem) : String × ℚ :=
  (i.room.getD "", i.amount.getD 0)

/-- The pure accumulation underlying calculate_room_totals once the room
and amount of every item have been read. -/
def roomFold (t : List (String × ℚ)) (ps : List (String × ℚ)) :
    List (String × ℚ) :=
  ps.foldl (fun t p => addRoomAmount t p.1 p.2) t

/-- Total amount contributed to one room by a list of room and amount
pairs. -/
def pairSum (r : String) (ps : List (String × ℚ)) : ℚ :=
  ((ps.filter fun p => p.1 = r).map Prod.snd).sum

/-! Basic evaluation lemmas for the numeric boundary. -/

theorem getNum_num (x : ℚ) : getNum (some (.num x)) = .ok x := by
  by_cases hx : x = 0 <;>
    simp [getNum, pyOrZero, PyVal.truthy, pyFloat, hx]

theorem getNum_none : getNum (none : Option PyVal) = .ok 0 := by
  simp [getNum, pyOrZero, PyVal.truthy, pyFloat]

theorem getNum_vnone : getNum (some .vnone) = .ok 0 := by
  simp [getNum, pyOrZero, PyVal.truthy, pyFloat]

/-- Unfolding of calculate_item_amount once the four numeric conversions
are known to succeed. -/
theorem calc_item_eq (item : LineItem) (l h q r : ℚ)
    (hl : getNum item.length = .ok l) (hh : getNum item.height = .ok h)
    (hq : getNum item.quantity = .ok q) (hr : getNum item.rate = .ok r) :
    calculate_item_amount item =
      (addOnCost (item.uom.getD "NOS") l h q item.add_ons).map
        (fun c =>
          baseAmount (item.uom.getD "NOS") l h q r +
            materialAddition (item.uom.getD "NOS") l h q item.material + c) := by
  unfold calculate_item_amount
  rw [hl, hh, hq, hr]
  cases hc : addOnCost (item.uom.getD "NOS") l h q item.add_ons <;>
    simp [Except.bind, Except.map, hc]

theorem materialAddition_none (uom : String) (l h q : ℚ) :
    materialAddition uom l h q none = 0 := rfl

theorem addOnCost_none (uom : String) (l h q : ℚ) :
    addOnCost uom l h q none = .ok 0 := rfl

/-- Claim C6: the grand total is exactly subtotal plus tax minus
discount, with no floor at zero; when the discount exceeds subtotal plus
tax the result is negative, and the function is total so no error is
raised. -/
theorem grand_total_exact (subtotal gst_amount discount_amount : ℚ) :
    calculate_grand_total subtotal gst_amount discount_amount =
        subtotal + gst_amount - discount_amount ∧
      (subtotal + gst_amount < discount_amount →
        calculate_grand_total subtotal gst_amount discount_amount < 0) := by
  refine ⟨rfl, fun hlt => ?_⟩
  unfold calculate_grand_total
  linarith

theorem grand_total_exact_witness :
    calculate_grand_total 0 0 1 = 0 + 0 - 1 ∧ calculate_grand_total 0 0 1 < 0 :=
  ⟨(grand_total_exact 0 0 1).1, (grand_total_exact 0 0 1).2 (by simp)⟩

/-- Claim C2: with no material and no add-ons, the amount is
length times height times quantity times rate under SFT, length times
quantity times rate under RFT, and quantity times rate under NOS and any
unrecognized unit of measure. -/
theorem amount_no_material_no_addons (item : LineItem) (L H Q R : ℚ)
    (hl : item.length = some (.num L)) (hh : item.height = some (.num H))
    (hq : item.quantity = some (.num Q)) (hr : item.rate = some (.num R))
    (hmat : item.material = none) (hadd : item.add_ons = none) :
    calculate_item_amount item =
      .ok (if item.uom.getD "NOS" = "SFT" then L * H * Q * R
        else if item.uom.getD "NOS" = "RFT" then L * Q * R
        else Q * R) := by
  rw [calc_item_eq item L H Q R (hl ▸ getNum_num L) (hh ▸ getNum_num H)
      (hq ▸ getNum_num Q) (hr ▸ getNum_num R), hmat, hadd,
    addOnCost_none, materialAddition_none]
  unfold baseAmount
  split_ifs <;> simp [Except.map]

theorem amount_no_material_no_addons_witness :
    calculate_item_amount
        ⟨some "SFT", some (.num 10), some (.num 8), some (.num 1),
          some (.num 150), none, none⟩ = .ok 12000 := by
  have h := amount_no_material_no_addons
    ⟨some "SFT", some (.num 10), some (.num 8), some (.num 1),
      some (.num 150), none, none⟩ 10 8 1 150 rfl rfl rfl rfl rfl rfl
  rw [h]
  with_unfolding_all rfl

/-- Core of claim C4, shared with the base-material theorem: the effect
of the material block on the amount is exactly the looked-up surcharge
scaled like the base amount, or nothing when the selected value is not a
key. -/
theorem amount_material_delta_core (item : LineItem) (L H Q R : ℚ) (sel : String)
    (pa : Option (List (String × ℚ)))
    (hl : item.length = some (.num L)) (hh : item.height = some (.num H))
    (hq : item.quantity = some (.num Q)) (hr : item.rate = some (.num R))
    (hmat : item.material = some ⟨some sel, pa⟩) (hsel : sel ≠ "") :
    (∀ p : ℚ, assocLookup sel (pa.getD []) = some p →
      calculate_item_amount item =
        (calculate_item_amount { item with material := none }).map
          (fun a => a + scaled (item.uom.getD "NOS") p L H Q)) ∧
    (assocLookup sel (pa.getD []) = none →
      calculate_item_amount item =
        calculate_item_amount { item with material := none }) := by
  have hbase := calc_item_eq { item with material := none } L H Q R
    (hl ▸ getNum_num L) (hh ▸ getNum_num H) (hq ▸ getNum_num Q) (hr ▸ getNum_num R)
  have hfull := calc_item_eq item L H Q R
    (hl ▸ getNum_num L) (hh ▸ getNum_num H) (hq ▸ getNum_num Q) (hr ▸ getNum_num R)
  constructor
  · intro p hp
    rw [hfull, hbase]
    cases hc : addOnCost (item.uom.getD "NOS") L H Q item.add_ons
    · simp [Except.map, materialAddition, hmat, hsel, hp]
    · simp [Except.map, materialAddition, hmat, hsel, hp]
      ring
  · intro hp
    rw [hfull, hbase]
    cases hc : addOnCost (item.uom.getD "NOS") L H Q item.add_ons <;>
      simp [Except.map, materialAddition, hmat, hsel, hp]

/-- Claim C4: selecting a material that is a key of price_additions with
surcharge p raises the amount over the no-material amount by exactly the
surcharge scaled like the base amount (p times length times height times
quantity under SFT, p times length times quantity under RFT, p times
quantity otherwise); selecting a value that is not a key leaves the
amount unchanged. -/
theorem amount_material_delta (item : LineItem) (L H Q R : ℚ) (sel : String)
    (pa : Option (List (String × ℚ)))
    (hl : item.length = some (.num L)) (hh : item.height = some (.num H))
    (hq : item.quantity = some (.num Q)) (hr : item.rate = some (.num R))
    (hmat : item.material = some ⟨some sel, pa⟩) (hsel : sel ≠ "") :
    (∀ p : ℚ, assocLookup sel (pa.getD []) = some p →
      calculate_item_amount item =
        (calculate_item_amount { item with material := none }).map
          (fun a => a + scaled (item.uom.getD "NOS") p L H Q)) ∧
    (assocLookup sel (pa.getD []) = none →
      calculate_item_amount item =
        calculate_item_amount { item with material := none }) :=
  amount_material_delta_core item L H Q R sel pa hl hh hq hr hmat hsel

theorem amount_material_delta_witness :
    calculate_item_amount
        ⟨some "SFT", some (.num 2), some (.num 3), some (.num 4),
          some (.num 10),
          some ⟨some "Veneer", some [("Laminate", 0), ("Veneer", 500)]⟩,
          none⟩ =
      (calculate_item_amount
          ⟨some "SFT", some (.num 2), some (.num 3), some (.num 4),
            some (.num 10), none, none⟩).map
        (fun a => a + scaled "SFT" 500 2 3 4) := by
  have h := (amount_material_delta
    ⟨some "SFT", some (.num 2), some (.num 3), some (.num 4), some (.num 10),
      some ⟨some "Veneer", some [("Laminate", 0), ("Veneer", 500)]⟩, none⟩
    2 3 4 10 "Veneer" (some [("Laminate", 0), ("Veneer", 500)])
    rfl rfl rfl rfl rfl (by decide)).1 500 (by decide)
  exact h

/-- The legacy loop adds 150 per square foot scaling for every segment
naming profile door and 250 for every segment naming lights, and nothing
otherwise; under a unit other than SFT it adds nothing at all. -/
theorem legacy_fold (u : String) (l h q : ℚ) (segs : List (List Char)) (a : ℚ) :
    segs.foldl (legacyStep u l h q) a =
      a + (if u = "SFT" then
        ((segs.countP
            (fun seg => pyLower (pyStrip seg) = "profile door".data) : ℚ) * 150 +
          (segs.countP
            (fun seg => pyLower (pyStrip seg) = "lights".data) : ℚ) * 250) *
          ((l * h) * q)
      else 0) := by
  induction segs generalizing a with
  | nil => split_ifs <;> simp
  | cons seg segs ih =>
    rw [List.foldl_cons, ih]
    unfold legacyStep
    by_cases hp : pyLower (pyStrip seg) = "profile door".data
    · have hl2 : ¬ pyLower (pyStrip seg) = "lights".data := by
        rw [hp]; decide
      by_cases hu : u = "SFT"
      · simp [hp, hl2, hu, List.countP_cons]
        ring
      · simp [hp, hl2, hu, List.countP_cons]
    · by_cases hl2 : pyLower (pyStrip seg) = "lights".data
      · by_cases hu : u = "SFT"
        · simp [hp, hl2, hu, List.countP_cons]
          ring
        · simp [hp, hl2, hu, List.countP_cons]
      · by_cases hu : u = "SFT" <;>
          simp [hp, hl2, hu, List.countP_cons]

/-- The mapping add-on loop over entries none of which is selected keeps
the accumulator unchanged. -/
theorem addOnLoop_unselected (u : String) (l h q a : ℚ)
    (entries : List (String × AddOnEntry))
    (hall : ∀ e ∈ entries, (e.2.selected.getD (.bool false)).truthy = false) :
    addOnLoop u l h q a entries = .ok a := by
  induction entries with
  | nil => rfl
  | cons e rest ih =>
    have he := hall e (List.mem_cons_self e rest)
    rw [addOnLoop, if_neg (by simp [he])]
    exact ih fun x hx => hall x (List.mem_cons_of_mem e hx)

/-- Claim C5: a legacy comma separated add_ons string contributes 150
times length times height times quantity for every segment naming
profile door and 250 times the same factor for every segment naming
lights, in each case only under SFT, and every other segment contributes
nothing; and when add_ons is a mapping the legacy string rule is never
applied, so a mapping with no selected entry leaves the amount at the
no-add-ons value even if its keys name profile door or lights. -/
theorem amount_legacy_addons (item : LineItem) (L H Q R : ℚ)
    (hl : item.length = some (.num L)) (hh : item.height = some (.num H))
    (hq : item.quantity = some (.num Q)) (hr : item.rate = some (.num R)) :
    (∀ s : String, item.add_ons = some (.str s) → s ≠ "" →
      calculate_item_amount item =
        (calculate_item_amount { item with add_ons := none }).map
          (fun a => a +
            (if item.uom.getD "NOS" = "SFT" then
              (((pySplit ',' s.data).countP
                  (fun seg => pyLower (pyStrip seg) = "profile door".data) : ℚ) * 150 +
                ((pySplit ',' s.data).countP
                  (fun seg => pyLower (pyStrip seg) = "lights".data) : ℚ) * 250) *
                ((L * H) * Q)
            else 0))) ∧
    (∀ entries : List (String × AddOnEntry), item.add_ons = some (.dict entries) →
      (∀ e ∈ entries, (e.2.selected.getD (.bool false)).truthy = false) →
      calculate_item_amount item =
        calculate_item_amount { item with add_ons := none }) := by
  have hbase := calc_item_eq { item with add_ons := none } L H Q R
    (hl ▸ getNum_num L) (hh ▸ getNum_num H) (hq ▸ getNum_num Q) (hr ▸ getNum_num R)
  have hfull := calc_item_eq item L H Q R
    (hl ▸ getNum_num L) (hh ▸ getNum_num H) (hq ▸ getNum_num Q) (hr ▸ getNum_num R)
  constructor
  · intro s hs hne
    have hstr : addOnCost (item.uom.getD "NOS") L H Q (some (.str s)) =
        .ok ((pySplit ',' s.data).foldl
          (legacyStep (item.uom.getD "NOS") L H Q) 0) := by
      simp [addOnCost, hne]
    rw [hfull, hbase, hs, hstr,
      legacy_fold (item.uom.getD "NOS") L H Q (pySplit ',' s.data) 0]
    simp only [addOnCost_none, Except.map]
    split_ifs <;> ring_nf
  · intro entries hs hall
    have hdict : addOnCost (item.uom.getD "NOS") L H Q (some (.dict entries)) =
        .ok 0 :=
      addOnLoop_unselected _ _ _ _ _ entries hall
    rw [hfull, hbase, hs, hdict]
    rfl

theorem amount_legacy_addons_witness :
    calculate_item_amount
        ⟨some "SFT", some (.num 2), some (.num 3), some (.num 1),
          some (.num 10), none, some (.str "Profile Door, lights, frosted")⟩ =
      .ok 2460 := by
  have h := (amount_legacy_addons
    ⟨some "SFT", some (.num 2), some (.num 3), some (.num 1), some (.num 10),
      none, some (.str "Profile Door, lights, frosted")⟩
    2 3 1 10 rfl rfl rfl rfl).1 "Profile Door, lights, frosted" rfl (by decide)
  rw [h]
  with_unfolding_all rfl

/-! Lemmas about a zero quantity. -/

theorem baseAmount_qzero (u : String) (l h r : ℚ) : baseAmount u l h 0 r = 0 := by
  unfold baseAmount
  split_ifs <;> ring

theorem scaled_qzero (u : String) (p l h : ℚ) : scaled u p l h 0 = 0 := by
  unfold scaled
  split_ifs <;> ring

theorem materialAddition_qzero (u : String) (l h : ℚ) (mat : Option Material) :
    materialAddition u l h 0 mat = 0 := by
  cases mat with
  | none => rfl
  | some m =>
    cases hsel : m.selected with
    | none => simp [materialAddition, hsel]
    | some sel =>
      by_cases hs : sel = ""
      · simp [materialAddition, hsel, hs]
      · cases hp : assocLookup sel (m.price_additions.getD []) <;>
          simp [materialAddition, hsel, hs, hp, scaled_qzero]

theorem addOnLoop_qzero (u : String) (l h a w : ℚ)
    (entries : List (String × AddOnEntry))
    (hw : addOnLoop u l h 0 a entries = .ok w) : w = a := by
  induction entries generalizing a with
  | nil =>
    rw [addOnLoop] at hw
    exact (Except.ok.injEq a w).mp hw |>.symm
  | cons e rest ih =>
    rw [addOnLoop] at hw
    by_cases hsel : (e.2.selected.getD (.bool false)).truthy
    · rw [if_pos hsel] at hw
      cases hr : pyFloat (pyOrZero (e.2.rate_per_unit.getD (.num 0))) with
      | error err => rw [hr] at hw; exact absurd hw (by simp [Except.bind])
      | ok r =>
        rw [hr] at hw
        simp only [Except.bind] at hw
        have hwa := ih _ hw
        rw [hwa, scaled_qzero, add_zero]
    · rw [if_neg hsel] at hw
      exact ih _ hw

theorem addOnCost_qzero (u : String) (l h w : ℚ) (ao : Option AddOnsVal)
    (hw : addOnCost u l h 0 ao = .ok w) : w = 0 := by
  cases ao with
  | none => exact ((Except.ok.injEq 0 w).mp hw).symm
  | some v =>
    cases v with
    | dict entries => exact addOnLoop_qzero u l h 0 w entries hw
    | str s =>
      by_cases hs : s = ""
      · rw [addOnCost, if_neg (by simp [hs])] at hw
        exact ((Except.ok.injEq 0 w).mp hw).symm
      · rw [addOnCost, if_pos hs, legacy_fold] at hw
        have := ((Except.ok.injEq _ w).mp hw).symm
        rw [this]
        split_ifs <;> ring

/-- Claim C9 amended: when the quantity field is absent, None or 0, any
amount the computation returns is 0, since the base amount, the material
surcharge and every add-on contribution are multiplied by the quantity;
a malformed string in another numeric field still raises instead of
returning 0. -/
theorem amount_zero_quantity (item : LineItem) (v : ℚ)
    (hq : item.quantity = none ∨ item.quantity = some .vnone ∨
      item.quantity = some (.num 0))
    (hv : calculate_item_amount item = .ok v) : v = 0 := by
  have hq0 : getNum item.quantity = .ok 0 := by
    rcases hq with hcase | hcase | hcase <;> rw [hcase]
    · exact getNum_none
    · exact getNum_vnone
    · exact getNum_num 0
  unfold calculate_item_amount at hv
  cases hl : getNum item.length with
  | error err => rw [hl] at hv; exact absurd hv (by simp [Except.bind])
  | ok l =>
    rw [hl] at hv
    simp only [Except.bind] at hv
    cases hh : getNum item.height with
    | error err => rw [hh] at hv; exact absurd hv (by simp [Except.bind])
    | ok h =>
      rw [hh, hq0] at hv
      simp only [Except.bind] at hv
      cases hr : getNum item.rate with
      | error err => rw [hr] at hv; exact absurd hv (by simp [Except.bind])
      | ok r =>
        rw [hr] at hv
        simp only [Except.bind] at hv
        cases hc : addOnCost (item.uom.getD "NOS") l h 0 item.add_ons with
        | error err => rw [hc] at hv; exact absurd hv (by simp [Except.bind])
        | ok c =>
          rw [hc] at hv
          simp only [Except.bind] at hv
          have hv2 := ((Except.ok.injEq _ v).mp hv).symm
          rw [hv2, addOnCost_qzero _ _ _ _ _ hc, baseAmount_qzero,
            materialAddition_qzero]
          ring

/-- Claim C9 counterexample: the quantity key is absent yet the call does
not return 0 at all, because the malformed length string raises first. -/
theorem amount_zero_quantity_cex :
    (⟨some "SFT", some (.str "oops"), none, none, none, none,
        none⟩ : LineItem).quantity = none ∧
      calculate_item_amount
        ⟨some "SFT", some (.str "oops"), none, none, none, none, none⟩ =
          .error () :=
  ⟨rfl, rfl⟩

theorem amount_zero_quantity_witness :
    calculate_item_amount
      ⟨some "SFT", some (.num 5), some (.num 2), some (.num 0),
        some (.num 100), none, none⟩ = .ok 0 := by
  have hv : calculate_item_amount
      ⟨some "SFT", some (.num 5), some (.num 2), some (.num 0),
        some (.num 100), none, none⟩ = .ok 0 := by
    with_unfolding_all rfl
  have h0 := amount_zero_quantity
    ⟨some "SFT", some (.num 5), some (.num 2), some (.num 0),
      some (.num 100), none, none⟩ 0 (Or.inr (Or.inr rfl)) hv
  rw [h0] at hv
  exact hv

theorem addOnLoop_ok (u : String) (l h q a : ℚ)
    (entries : List (String × AddOnEntry))
    (hok : ∀ e ∈ entries, (e.2.selected.getD (.bool false)).truthy = true →
      ∃ x, pyFloat (pyOrZero (e.2.rate_per_unit.getD (.num 0))) = .ok x) :
    ∃ w, addOnLoop u l h q a entries = .ok w := by
  induction entries generalizing a with
  | nil => exact ⟨a, rfl⟩
  | cons e rest ih =>
    rw [addOnLoop]
    by_cases hsel : (e.2.selected.getD (.bool false)).truthy
    · obtain ⟨x, hx⟩ := hok e (List.mem_cons_self e rest) hsel
      rw [if_pos hsel, hx]
      simp only [Except.bind]
      exact ih _ fun y hy => hok y (List.mem_cons_of_mem e hy)
    · rw [if_neg hsel]
      exact ih _ fun y hy => hok y (List.mem_cons_of_mem e hy)

theorem addOnCost_ok (u : String) (l h q : ℚ) (ao : Option AddOnsVal)
    (hok : addOnRatesOk ao) : ∃ w, addOnCost u l h q ao = .ok w := by
  cases ao with
  | none => exact ⟨0, rfl⟩
  | some v =>
    cases v with
    | dict entries => exact addOnLoop_ok u l h q 0 entries hok
    | str s =>
      rw [addOnCost]
      by_cases hs : s = ""
      · rw [if_neg (by simp [hs])]
        exact ⟨0, rfl⟩
      · rw [if_pos hs]
        exact ⟨_, rfl⟩

/-- Claim C1 amended: an absent field and a None or otherwise falsy value
coerce to 0 (getNum of an absent field is 0), and whenever each of the
four numeric fields and every selected add-on rate coerces, the
computation completes with a numeric result, equal to the result on the
record with the coerced numeric values filled in.  A non-numeric
non-empty string in one of these fields is not coerced to 0: it makes the
conversion raise, as the counterexample shows. -/

theorem amount_coercion_completes (item : LineItem) (l h q r : ℚ)
    (hl : getNum item.length = .ok l) (hh : getNum item.height = .ok h)
    (hq : getNum item.quantity = .ok q) (hr : getNum item.rate = .ok r)
    (hok : addOnRatesOk item.add_ons) :
    getNum none = .ok 0 ∧
      ∃ v, calculate_item_amount item = .ok v ∧
        calculate_item_amount (fillNumericFields item l h q r) = .ok v := by
  refine ⟨getNum_none, ?_⟩
  obtain ⟨w, hw⟩ := addOnCost_ok (item.uom.getD "NOS") l h q item.add_ons hok
  refine ⟨baseAmount (item.uom.getD "NOS") l h q r +
    materialAddition (item.uom.getD "NOS") l h q item.material + w, ?_, ?_⟩
  · rw [calc_item_eq item l h q r hl hh hq hr, hw]
    rfl
  · rw [calc_item_eq (fillNumericFields item l h q r) l h q r
      (getNum_num l) (getNum_num h) (getNum_num q) (getNum_num r)]
    rw [show (fillNumericFields item l h q r).uom = item.uom from rfl]
    rw [show (fillNumericFields item l h q r).add_ons = item.add_ons from rfl]
    rw [show (fillNumericFields item l h q r).material = item.material from rfl]
    rw [hw]
    rfl

/-- Claim C1 counterexample: a non-numeric string in the quantity field
is not coerced to 0; float raises ValueError and the computation does not
complete. -/
theorem amount_malformed_string_cex :
    calculate_item_amount
      ⟨some "SFT", some (.num 10), some (.num 8), some (.str "abc"),
        some (.num 150), none, none⟩ = .error () := rfl

theorem amount_coercion_completes_witness :
    calculate_item_amount
        ⟨some "NOS", none, some .vnone, some (.num 2), some (.num 3), none,
          some (.dict [("extra", ⟨some (.bool true), some (.str "25")⟩)])⟩ =
        .ok 56 ∧
      calculate_item_amount
        ⟨some "NOS", some (.num 0), some (.num 0), some (.num 2),
          some (.num 3), none,
          some (.dict [("extra", ⟨some (.bool true), some (.str "25")⟩)])⟩ =
        .ok 56 := by
  obtain ⟨-, v, h1, h2⟩ := amount_coercion_completes
    ⟨some "NOS", none, some .vnone, some (.num 2), some (.num 3), none,
      some (.dict [("extra", ⟨some (.bool true), some (.str "25")⟩)])⟩
    0 0 2 3 getNum_none getNum_vnone (getNum_num 2) (getNum_num 3)
    (by
      intro e he ht
      rw [List.mem_singleton] at he
      subst he
      exact ⟨_, rfl⟩)
  have h56 : calculate_item_amount
      ⟨some "NOS", none, some .vnone, some (.num 2), some (.num 3), none,
        some (.dict [("extra", ⟨some (.bool true), some (.str "25")⟩)])⟩ =
      .ok 56 := by
    with_unfolding_all rfl
  rw [h1] at h56
  injection h56 with hv
  subst hv
  exact ⟨h1, h2⟩

theorem ppm_fold (segs : List (List Char)) (acc : List (String × ℚ)) :
    segs.foldl
      (fun price_map pair =>
        if pair.contains ':' then
          let np := splitFirst ':' pair
          let name := String.mk (pyStrip np.1)
          match parseFloat? (pyStrip np.2) with
          | some price => insertPy price_map name price
          | none => price_map
        else price_map)
      acc =
    (segs.filterMap specSegmentPair).foldl
      (fun m p => insertPy m p.1 p.2) acc := by
  induction segs generalizing acc with
  | nil => rfl
  | cons seg segs ih =>
    rw [List.foldl_cons, List.filterMap_cons]
    by_cases hc : seg.contains ':'
    · cases hp : parseFloat? (pyStrip (splitFirst ':' seg).2) with
      | none => simp only [hc, if_true, hp, specSegmentPair]; rw [ih]
      | some p =>
        simp only [hc, if_true, hp, specSegmentPair, List.foldl_cons]
        rw [ih]
    · simp only [hc, Bool.false_eq_true, if_false, specSegmentPair]
      rw [ih]

/-- Claim C8: parse_price_mapping keeps exactly the well formed segments
(split on commas, split each segment at the first colon, trim both
parts, silently drop a segment whose price does not parse), inserting
them in order; in particular the scenario inputs give the expected
mappings and no error is possible since the function is total. -/
theorem parse_price_mapping_spec :
    (∀ s : String, parse_price_mapping s =
      ((pySplit ',' s.data).filterMap specSegmentPair).foldl
        (fun m p => insertPy m p.1 p.2) []) ∧
      parse_price_mapping "bad,Lights:250" = [("Lights", 250)] ∧
      parse_price_mapping "Lights:250,Profile Door:150" =
        [("Lights", 250), ("Profile Door", 150)] := by
  refine ⟨fun s => ?_, by with_unfolding_all rfl, by with_unfolding_all rfl⟩
  by_cases hs : s = ""
  · subst hs
    rfl
  · rw [parse_price_mapping, if_neg hs]
    exact ppm_fold (pySplit ',' s.data) []

/-! Association list lemmas for the price_additions dictionary. -/

theorem assocLookup_append (b : String) (m u : List (String × ℚ)) :
    assocLookup b (m ++ u) =
      match assocLookup b m with
      | some v => some v
      | none => assocLookup b u := by
  induction m with
  | nil => rfl
  | cons p t ih =>
    obtain ⟨k, v⟩ := p
    by_cases hk : k = b
    · simp [assocLookup, hk]
    · simp [assocLookup, hk, ih]

theorem assocLookup_mapReplace (b k : String) (v : ℚ) (m : List (String × ℚ))
    (hne : k ≠ b) :
    assocLookup b (m.map (fun p => if p.1 = k then (k, v) else p)) =
      assocLookup b m := by
  induction m with
  | nil => rfl
  | cons p t ih =>
    obtain ⟨k1, v1⟩ := p
    rw [List.map_cons]
    by_cases h1 : k1 = k
    · have hk1b : k1 ≠ b := by rw [h1]; exact hne
      rw [show (if ((k1, v1) : String × ℚ).1 = k then (k, v) else (k1, v1)) =
          (k, v) from if_pos h1]
      rw [assocLookup, assocLookup, if_neg hne, if_neg hk1b]
      exact ih
    · rw [show (if ((k1, v1) : String × ℚ).1 = k then (k, v) else (k1, v1)) =
          (k1, v1) from if_neg h1]
      rw [assocLookup, assocLookup]
      by_cases h2 : k1 = b
      · rw [if_pos h2, if_pos h2]
      · rw [if_neg h2, if_neg h2]
        exact ih

theorem assocLookup_insertPy_ne (b k : String) (v : ℚ) (m : List (String × ℚ))
    (hne : k ≠ b) : assocLookup b (insertPy m k v) = assocLookup b m := by
  unfold insertPy
  split_ifs with hmem
  · exact assocLookup_mapReplace b k v m hne
  · rw [assocLookup_append]
    cases hb : assocLookup b m
    · simp [assocLookup, hne]
    · rfl

/-- The option loop of get_material_options_from_rate_card never touches
the binding of a name that is not among the remaining options. -/
theorem materialFold_base (base : String) (mp : List (String × ℚ))
    (rest : List String) (pa : List (String × ℚ))
    (hbase : assocLookup base pa = some 0) (hni : base ∉ rest) :
    assocLookup base
      (rest.foldl
        (fun pa o =>
          match assocLookup o mp with
          | some p => insertPy pa o p
          | none => insertPy pa o (defaultMaterialPrice o))
        pa) = some 0 := by
  induction rest generalizing pa with
  | nil => exact hbase
  | cons o rest ih =>
    have hob : base ≠ o := fun hcontr => hni (List.mem_cons.mpr (Or.inl hcontr))
    have hnr : base ∉ rest := fun hcontr => hni (List.mem_cons.mpr (Or.inr hcontr))
    rw [List.foldl_cons]
    cases hmp : assocLookup o mp with
    | some p =>
      exact ih (insertPy pa o p)
        (by rw [assocLookup_insertPy_ne base o p pa (Ne.symm hob)]; exact hbase) hnr
    | none =>
      exact ih (insertPy pa o (defaultMaterialPrice o))
        (by rw [assocLookup_insertPy_ne base o _ pa (Ne.symm hob)]; exact hbase) hnr

theorem scaled_zero_rate (u : String) (l h q : ℚ) : scaled u 0 l h q = 0 := by
  unfold scaled
  split_ifs <;> ring

/-- Claim C3 amended: when the first (trimmed) listed option does not
occur again later in the options list, price_additions maps it to
surcharge 0 regardless of any price supplied in material_prices, and then
selecting the base material yields the same amount as selecting no
material; when the base name recurs later in the list, the loop
reassigns it, as the counterexample shows. -/
theorem material_base_zero (rci : RateCardItem) (s base : String)
    (rest : List String) (hmo : rci.material_options = some s) (hs : s ≠ "")
    (hsplit : (pySplit ',' s.data).map (fun o => String.mk (pyStrip o)) =
      base :: rest)
    (hnd : base ∉ rest) :
    assocLookup base
        (get_material_options_from_rate_card rci).price_additions = some 0 ∧
      ∀ (item : LineItem) (L H Q R : ℚ),
        item.length = some (.num L) → item.height = some (.num H) →
        item.quantity = some (.num Q) → item.rate = some (.num R) →
        item.material = some ⟨some base,
          some (get_material_options_from_rate_card rci).price_additions⟩ →
        calculate_item_amount item =
          calculate_item_amount { item with material := none } := by
  have h0 : assocLookup base
      (get_material_options_from_rate_card rci).price_additions = some 0 := by
    simp only [get_material_options_from_rate_card, hmo]
    rw [if_pos hs, hsplit]
    exact materialFold_base base _ rest [(base, 0)] (by simp [assocLookup]) hnd
  refine ⟨h0, fun item L H Q R hl hh hq hr hmat => ?_⟩
  by_cases hbe : base = ""
  · have hfull := calc_item_eq item L H Q R (hl ▸ getNum_num L)
      (hh ▸ getNum_num H) (hq ▸ getNum_num Q) (hr ▸ getNum_num R)
    have hbase2 := calc_item_eq { item with material := none } L H Q R
      (hl ▸ getNum_num L) (hh ▸ getNum_num H) (hq ▸ getNum_num Q)
      (hr ▸ getNum_num R)
    rw [hfull, hbase2]
    simp [materialAddition, hmat, hbe]
  · have hd := (amount_material_delta_core item L H Q R base
      (some (get_material_options_from_rate_card rci).price_additions)
      hl hh hq hr hmat hbe).1 0 (by simpa using h0)
    simp only [scaled_zero_rate, add_zero] at hd
    rw [hd]
    cases hx : calculate_item_amount { item with material := none } <;>
      simp [Except.map]

/-- Claim C3 counterexample: when the base name occurs twice in
material_options, the option loop reassigns the base binding from the
supplied material_prices, so the first listed option is not mapped to
surcharge 0. -/
theorem material_base_zero_cex :
    (get_material_options_from_rate_card
        ⟨some "X, X", some "X:500"⟩).price_additions = [("X", 500)] ∧
      assocLookup "X"
        (get_material_options_from_rate_card
          ⟨some "X, X", some "X:500"⟩).price_additions ≠ some 0 := by
  have h : (get_material_options_from_rate_card
      ⟨some "X, X", some "X:500"⟩).price_additions = [("X", 500)] := by
    with_unfolding_all rfl
  refine ⟨h, ?_⟩
  rw [h]
  simp [assocLookup]

theorem material_base_zero_witness :
    assocLookup "Laminate"
        (get_material_options_from_rate_card
          ⟨some "Laminate, Veneer", some "Laminate:999"⟩).price_additions =
        some 0 ∧
      calculate_item_amount
          ⟨some "SFT", some (.num 1), some (.num 2), some (.num 3),
            some (.num 4),
            some ⟨some "Laminate",
              some (get_material_options_from_rate_card
                ⟨some "Laminate, Veneer", some "Laminate:999"⟩).price_additions⟩,
            none⟩ =
        calculate_item_amount
          ⟨some "SFT", some (.num 1), some (.num 2), some (.num 3),
            some (.num 4), none, none⟩ := by
  obtain ⟨h0, h2⟩ := material_base_zero
    ⟨some "Laminate, Veneer", some "Laminate:999"⟩ "Laminate, Veneer"
    "Laminate" ["Veneer"] rfl (by decide) (by decide) (by decide)
  exact ⟨h0, h2
    ⟨some "SFT", some (.num 1), some (.num 2), some (.num 3), some (.num 4),
      some ⟨some "Laminate",
        some (get_material_options_from_rate_card
          ⟨some "Laminate, Veneer", some "Laminate:999"⟩).price_additions⟩,
      none⟩ 1 2 3 4 rfl rfl rfl rfl rfl⟩

/-! Room total machinery: the fold is characterized by a per-room sum,
which is invariant under permutation of the input. -/

theorem assocLookup_nil (k : String) : assocLookup k [] = none := rfl

theorem assocLookup_cons (k k1 : String) (v : ℚ) (t : List (String × ℚ)) :
    assocLookup k ((k1, v) :: t) =
      if k1 = k then some v else assocLookup k t := rfl

theorem any_key_eq_isSome (k : String) (t : List (String × ℚ)) :
    (t.any fun p => p.1 = k) = (assocLookup k t).isSome := by
  induction t with
  | nil => rfl
  | cons p t ih =>
    obtain ⟨k1, v1⟩ := p
    by_cases h : k1 = k
    · simp [List.any_cons, assocLookup, h]
    · simp [List.any_cons, assocLookup, h, ih]

theorem lookup_mapAdd (r k : String) (a : ℚ) (t : List (String × ℚ)) :
    assocLookup r (t.map fun p => if p.1 = k then (p.1, p.2 + a) else p) =
      match assocLookup r t with
      | some v => some (if r = k then v + a else v)
      | none => none := by
  induction t with
  | nil => rfl
  | cons p t ih =>
    obtain ⟨k1, v1⟩ := p
    simp only [List.map_cons]
    by_cases h1 : k1 = k
    · have hhd : (if ((k1, v1) : String × ℚ).1 = k
          then ((k1, v1).1, (k1, v1).2 + a) else (k1, v1)) = (k1, v1 + a) :=
        if_pos h1
      rw [hhd, assocLookup_cons, assocLookup_cons]
      by_cases h2 : k1 = r
      · have hrk : r = k := h2.symm.trans h1
        rw [if_pos h2, if_pos h2]
        simp [hrk]
      · rw [if_neg h2, if_neg h2, ih]
    · have hhd : (if ((k1, v1) : String × ℚ).1 = k
          then ((k1, v1).1, (k1, v1).2 + a) else (k1, v1)) = (k1, v1) :=
        if_neg h1
      rw [hhd, assocLookup_cons, assocLookup_cons]
      by_cases h2 : k1 = r
      · have hrk : ¬ r = k := fun hh => h1 (h2.trans hh)
        rw [if_pos h2, if_pos h2]
        simp [hrk]
      · rw [if_neg h2, if_neg h2, ih]

theorem lookup_addRoomAmount (r k : String) (a : ℚ) (t : List (String × ℚ)) :
    assocLookup r (addRoomAmount t k a) =
      if r = k then some ((assocLookup k t).getD 0 + a)
      else assocLookup r t := by
  unfold addRoomAmount
  by_cases hmem : t.any fun p => p.1 = k
  · rw [if_pos hmem, lookup_mapAdd]
    rw [any_key_eq_isSome] at hmem
    by_cases hrk : r = k
    · rw [if_pos hrk, hrk]
      cases hv : assocLookup k t with
      | none => rw [hv] at hmem; simp at hmem
      | some v => simp
    · rw [if_neg hrk]
      cases hv : assocLookup r t with
      | none => rfl
      | some v => simp [hrk]
  · rw [if_neg hmem, assocLookup_append]
    rw [any_key_eq_isSome] at hmem
    by_cases hrk : r = k
    · rw [if_pos hrk, hrk]
      cases hv : assocLookup k t with
      | none => simp [assocLookup_cons, zero_add]
      | some v => rw [hv] at hmem; simp at hmem
    · rw [if_neg hrk]
      have hkr : ¬ k = r := fun hh => hrk hh.symm
      cases hv : assocLookup r t with
      | none => simp [assocLookup_cons, assocLookup_nil, hkr]
      | some v => rfl

theorem lookup_roomFold (r : String) (ps : List (String × ℚ)) :
    ∀ t, assocLookup r (roomFold t ps) =
      match assocLookup r t with
      | some v => some (v + pairSum r ps)
      | none =>
        if ps.any (fun p => p.1 = r) then some (pairSum r ps) else none := by
  induction ps with
  | nil =>
    intro t
    cases h : assocLookup r t <;> simp [roomFold, pairSum, h]
  | cons p ps ih =>
    intro t
    obtain ⟨k, a⟩ := p
    have hfold : roomFold t ((k, a) :: ps) =
        roomFold (addRoomAmount t k a) ps := rfl
    rw [hfold, ih (addRoomAmount t k a), lookup_addRoomAmount]
    by_cases hrk : r = k
    · subst hrk
      rw [if_pos rfl]
      have hps : pairSum r ((r, a) :: ps) = a + pairSum r ps := by
        simp [pairSum, List.filter_cons]
      cases hv : assocLookup r t with
      | some v => simp [hv, hps]; ring
      | none => simp [hv, hps, List.any_cons]
    · rw [if_neg hrk]
      have hkr : ¬ k = r := fun hh => hrk hh.symm
      have hps : pairSum r ((k, a) :: ps) = pairSum r ps := by
        simp [pairSum, List.filter_cons, hkr]
      have hany : ((k, a) :: ps).any (fun p => p.1 = r) =
          ps.any (fun p => p.1 = r) := by
        simp [List.any_cons, hkr]
      rw [hps, hany]

theorem pairSum_perm (r : String) {ps1 ps2 : List (String × ℚ)}
    (hp : ps1.Perm ps2) : pairSum r ps1 = pairSum r ps2 :=
  List.Perm.sum_eq ((List.Perm.filter _ hp).map Prod.snd)

theorem any_perm {α : Type} (f : α → Bool) {l1 l2 : List α}
    (hp : l1.Perm l2) : l1.any f = l2.any f := by
  induction hp with
  | nil => rfl
  | cons x h ih => simp [List.any_cons, ih]
  | swap x y l => simp [List.any_cons, Bool.or_left_comm]
  | trans h1 h2 ih1 ih2 => rw [ih1, ih2]

theorem roomTotalsAux_ok (l : List AggItem) :
    ∀ t, (∀ i ∈ l, i.room.isSome ∧ i.amount.isSome) →
      roomTotalsAux t l = .ok (roomFold t (l.map toPair)) := by
  induction l with
  | nil => intro t _; rfl
  | cons i l ih =>
    intro t hgood
    obtain ⟨hr, ha⟩ := hgood i (List.mem_cons_self i l)
    cases hir : i.room with
    | none => rw [hir] at hr; simp at hr
    | some r =>
      cases hia : i.amount with
      | none => rw [hia] at ha; simp at ha
      | some a =>
        simp only [roomTotalsAux, hir, hia]
        rw [ih (addRoomAmount t r a)
          (fun j hj => hgood j (List.mem_cons_of_mem i hj))]
        simp [roomFold, toPair, hir, hia]

/-- Claim C7: room totals are order independent; any permutation of the
item list (with all keys present) yields an equal room to total mapping,
with the same looked-up total for every room name. -/
theorem room_totals_perm (l1 l2 : List AggItem) (hp : l1.Perm l2)
    (hgood : ∀ i ∈ l1, i.room.isSome ∧ i.amount.isSome) :
    ∃ t1 t2, calculate_room_totals l1 = .ok t1 ∧
      calculate_room_totals l2 = .ok t2 ∧
      ∀ r, assocLookup r t1 = assocLookup r t2 := by
  have hgood2 : ∀ i ∈ l2, i.room.isSome ∧ i.amount.isSome :=
    fun i hi => hgood i (hp.mem_iff.mpr hi)
  refine ⟨_, _, roomTotalsAux_ok l1 [] hgood, roomTotalsAux_ok l2 [] hgood2, ?_⟩
  intro r
  have hmp : (l1.map toPair).Perm (l2.map toPair) := hp.map toPair
  rw [lookup_roomFold r (l1.map toPair) [], lookup_roomFold r (l2.map toPair) []]
  simp only [assocLookup]
  rw [pairSum_perm r hmp, any_perm _ hmp]

theorem room_totals_perm_witness :
    calculate_room_totals
        [⟨some "Kitchen", some 2000⟩, ⟨some "Hall", some 1000⟩,
          ⟨some "Hall", some 500⟩] = .ok [("Kitchen", 2000), ("Hall", 1500)] ∧
      calculate_room_totals
        [⟨some "Hall", some 1000⟩, ⟨some "Kitchen", some 2000⟩,
          ⟨some "Hall", some 500⟩] = .ok [("Hall", 1500), ("Kitchen", 2000)] ∧
      assocLookup "Hall" [("Kitchen", 2000), ("Hall", 1500)] =
        assocLookup "Hall" [("Hall", 1500), ("Kitchen", 2000)] := by
  obtain ⟨t1, t2, h1, h2, h3⟩ := room_totals_perm
    [⟨some "Kitchen", some 2000⟩, ⟨some "Hall", some 1000⟩,
      ⟨some "Hall", some 500⟩]
    [⟨some "Hall", some 1000⟩, ⟨some "Kitchen", some 2000⟩,
      ⟨some "Hall", some 500⟩]
    (List.Perm.swap (⟨some "Hall", some 1000⟩ : AggItem)
      (⟨some "Kitchen", some 2000⟩ : AggItem)
      ([⟨some "Hall", some 500⟩] : List AggItem))
    (by decide)
  have e1 : calculate_room_totals
      [⟨some "Kitchen", some 2000⟩, ⟨some "Hall", some 1000⟩,
        ⟨some "Hall", some 500⟩] = .ok [("Kitchen", 2000), ("Hall", 1500)] := by
    with_unfolding_all rfl
  have e2 : calculate_room_totals
      [⟨some "Hall", some 1000⟩, ⟨some "Kitchen", some 2000⟩,
        ⟨some "Hall", some 500⟩] = .ok [("Hall", 1500), ("Kitchen", 2000)] := by
    with_unfolding_all rfl
  rw [h1] at e1
  rw [h2] at e2
  injection e1 with he1
  injection e2 with he2
  subst he1
  subst he2
  exact ⟨h1, h2, h3 "Hall"⟩

theorem roomTotalsAux_error (l : List AggItem) :
    ∀ t, (roomTotalsAux t l = .error () ↔
      ∃ i ∈ l, i.room = none ∨ i.amount = none) := by
  induction l with
  | nil => intro t; simp [roomTotalsAux]
  | cons i l ih =>
    intro t
    cases hir : i.room with
    | none =>
      constructor
      · intro _
        exact ⟨i, List.mem_cons_self i l, Or.inl hir⟩
      · intro _
        simp [roomTotalsAux, hir]
    | some r =>
      cases hia : i.amount with
      | none =>
        constructor
        · intro _
          exact ⟨i, List.mem_cons_self i l, Or.inr hia⟩
        · intro _
          simp [roomTotalsAux, hir, hia]
      | some a =>
        simp only [roomTotalsAux, hir, hia]
        rw [ih (addRoomAmount t r a)]
        constructor
        · rintro ⟨j, hj, hcase⟩
          exact ⟨j, List.mem_cons_of_mem i hj, hcase⟩
        · rintro ⟨j, hj, hcase⟩
          rcases List.mem_cons.mp hj with hji | hjl
          · subst hji
            rcases hcase with hc | hc
            · rw [hir] at hc; cases hc
            · rw [hia] at hc; cases hc
          · exact ⟨j, hjl, hcase⟩

/-- Claim C10: the permissive coercion policy does not extend to the
aggregation engine; calculate_room_totals raises KeyError exactly when
some item lacks the room or the amount key, and returns a mapping exactly
when every item has both. -/
theorem room_totals_missing_key (l : List AggItem) :
    (calculate_room_totals l = .error () ↔
      ∃ i ∈ l, i.room = none ∨ i.amount = none) ∧
      ((∃ t, calculate_room_totals l = .ok t) ↔
        ∀ i ∈ l, i.room ≠ none ∧ i.amount ≠ none) := by
  have h1 : calculate_room_totals l = .error () ↔
      ∃ i ∈ l, i.room = none ∨ i.amount = none := roomTotalsAux_error l []
  refine ⟨h1, ?_, ?_⟩
  · rintro ⟨t, ht⟩ i hi
    constructor
    · intro hc
      have herr := h1.mpr ⟨i, hi, Or.inl hc⟩
      rw [ht] at herr
      cases herr
    · intro hc
      have herr := h1.mpr ⟨i, hi, Or.inr hc⟩
      rw [ht] at herr
      cases herr
  · intro hall
    cases hc : calculate_room_totals l with
    | ok t => exact ⟨t, rfl⟩
    | error e =>
      cases e
      obtain ⟨i, hi, hcase⟩ := h1.mp hc
      rcases hcase with hc2 | hc2
      · exact absurd hc2 (hall i hi).1
      · exact absurd hc2 (hall i hi).2

end Calculator

end QuoteDead
